import Mathlib

/-!
Shallow embedding of the AppleHealthDashboard storage, validation and parsing
layer (`src/data_storage/health_database.py`, `src/data_storage/schema_validator.py`,
`src/data_processing/health_parser.py`), together with theorems settling the
frozen claims about it.

Conventions of the embedding:
* SQLite `DATETIME` columns hold ISO-format text (the Python code always passes
  `datetime.isoformat()` strings or strings); they are modelled as `String`,
  compared lexicographically, which matches SQLite `TEXT` comparison for this
  uniform format.
* `REAL` values are modelled as `Rat` (the health values of interest are
  decimal literals; `nan`/`inf` never arise from the exporter).
* A Python `None` is `Option.none`; Python string truthiness (`if s:`) is
  "non-empty".
* Each database call opens a fresh connection; `cursor.lastrowid` mirrors
  `sqlite3_last_insert_rowid()`, which is 0 on a fresh connection until some
  `INSERT` succeeds, so an ignored `INSERT OR IGNORE` yields 0.
* SQLite `UNIQUE` treats `NULL`s as distinct: a row whose `end_date` is `NULL`
  never conflicts with any other row.
-/

/-- Python `s1 in s2` test helper: is `p` a leading block of `s`? -/
def charListLeads : List Char → List Char → Bool
  | [], _ => true
  | _ :: _, [] => false
  | p :: ps, c :: cs => p == c && charListLeads ps cs

/-- Python `p in s` substring containment on character lists. -/
def charListHasSub (pat : List Char) : List Char → Bool
  | [] => pat.isEmpty
  | c :: cs => charListLeads pat (c :: cs) || charListHasSub pat cs

/-- Python `pat in s` substring containment on strings. -/
def strContainsSub (s pat : String) : Bool :=
  charListHasSub pat.toList s.toList

/-- Lexicographic order on character lists by code point (the order SQLite
uses to compare `TEXT` values such as ISO dates). -/
def charListLe : List Char → List Char → Bool
  | [], _ => true
  | _ :: _, [] => false
  | a :: as, b :: bs =>
    decide (a.toNat < b.toNat) || (a.toNat == b.toNat && charListLe as bs)

/-- SQLite `TEXT` comparison `a <= b`. -/
def strLe (a b : String) : Bool :=
  charListLe a.toList b.toList

/-- SQLite `TEXT` comparison `a < b`. -/
def strLt (a b : String) : Bool :=
  strLe a b && !(a == b)

/-- Split a character list at every occurrence of a separator (Python
`str.split(sep)` with a one-character separator). -/
def splitChar (sep : Char) : List Char → List (List Char)
  | [] => [[]]
  | c :: cs =>
    match splitChar sep cs with
    | h :: t => if c == sep then [] :: h :: t else (c :: h) :: t
    | [] => [[c]]

/-- Python `s.split(sep)` for a one-character separator. -/
def pySplit (s : String) (sep : Char) : List String :=
  (splitChar sep s.toList).map String.mk

/-- Python `str.lower()` (ASCII case folding suffices for HealthKit names). -/
def pyLower (s : String) : String :=
  String.mk (s.toList.map Char.toLower)

/-- Python truthiness filter on an optional string: `None` and `""` are falsy. -/
def pyTruthyStr (o : Option String) : Option String :=
  o.bind (fun s => if s = "" then none else some s)

/-- Lookup in an association list of string pairs (Python `dict.get`). -/
def assocGet (m : List (String × String)) (k : String) : Option String :=
  (m.find? (fun p => p.1 == k)).map (·.2)

/-- A row of the `health_records` table (columns used by the code; the
`created_at`/`updated_at` default-timestamp columns are never read). -/
structure HealthRow where
  id : Nat
  record_type : String
  source : String
  unit : Option String
  value : Option Rat
  start_date : String
  end_date : Option String
  metadata_json : List (String × String)
deriving Repr, DecidableEq

/-- A row of the `workouts` table. -/
structure WorkoutRow where
  id : Nat
  workout_type : String
  source : String
  duration : Rat
  duration_unit : String
  start_date : String
  end_date : String
  total_distance : Option Rat
  total_distance_unit : Option String
  total_energy_burned : Option Rat
  total_energy_burned_unit : Option String
  metadata_json : List (String × String)
deriving Repr, DecidableEq

/-- A row of the `sources` table. -/
structure SourceRow where
  name : String
  version : Option String
  device : Option String
  first_seen : Option String
  last_seen : Option String
deriving Repr, DecidableEq

/-- A row of the `record_types` table (the code only ever fills
`type_name` and `category`). -/
structure RecordTypeRow where
  type_name : String
  description : Option String
  category : String
  default_unit : Option String
deriving Repr, DecidableEq

/-- The database state. `next_record_id` models the `AUTOINCREMENT`
sequence of `health_records` (monotone, starts at 1). -/
structure DB where
  health_records : List HealthRow
  next_record_id : Nat
  workouts : List WorkoutRow
  sources : List SourceRow
  record_types : List RecordTypeRow
deriving Repr, DecidableEq

/-- A freshly initialized database. -/
def emptyDB : DB :=
  { health_records := [], next_record_id := 1, workouts := [], sources := [], record_types := [] }

/-- The argument dictionary of `insert_health_record` (dates already as ISO
text, as produced by `isoformat()` or passed through unchanged). -/
structure RecordInput where
  record_type : String
  source : String
  unit : Option String
  value : Option Rat
  start_date : String
  end_date : Option String
  metadata : List (String × String)
deriving Repr, DecidableEq

/-- The argument dictionary of `insert_workout`. -/
structure WorkoutInput where
  workout_type : String
  source : String
  duration : Rat
  duration_unit : Option String
  start_date : String
  end_date : String
  total_distance : Option Rat
  total_distance_unit : Option String
  total_energy_burned : Option Rat
  total_energy_burned_unit : Option String
  metadata : List (String × String)
deriving Repr, DecidableEq

/-- `HealthDatabase._infer_category_from_type`. -/
def inferCategoryFromType (record_type : String) : String :=
  let l := pyLower record_type
  if ["heart", "pulse", "blood"].any (fun k => strContainsSub l k) then "Vital Signs"
  else if ["step", "walk", "run", "distance"].any (fun k => strContainsSub l k) then "Activity"
  else if ["workout", "exercise"].any (fun k => strContainsSub l k) then "Fitness"
  else if ["sleep", "rest"].any (fun k => strContainsSub l k) then "Sleep"
  else if ["nutrition", "food", "water"].any (fun k => strContainsSub l k) then "Nutrition"
  else "Other"

/-- `HealthDatabase._update_record_type_info`: insert a `record_types` row
with the inferred category only when the type name is not yet present. -/
def updateRecordTypeInfo (db : DB) (record_type : String) : DB :=
  match db.record_types.find? (fun rt => rt.type_name == record_type) with
  | some _ => db
  | none =>
    { db with record_types := db.record_types ++
        [{ type_name := record_type, description := none,
           category := inferCategoryFromType record_type, default_unit := none }] }

/-- `HealthDatabase._update_source_info`: upsert into `sources`;
`COALESCE(?, version)` keeps the old value when the new one is `NULL`. -/
def updateSourceInfo (db : DB) (now : String) (source_name : String)
    (metadata : List (String × String)) : DB :=
  match db.sources.find? (fun s => s.name == source_name) with
  | some _ =>
    { db with sources := db.sources.map (fun s =>
        if s.name == source_name then
          { s with
            version := (assocGet metadata "sourceVersion").orElse (fun _ => s.version),
            device := (assocGet metadata "device").orElse (fun _ => s.device),
            last_seen := some now }
        else s) }
  | none =>
    { db with sources := db.sources ++
        [{ name := source_name, version := assocGet metadata "sourceVersion",
           device := assocGet metadata "device",
           first_seen := some now, last_seen := some now }] }

/-- SQL equality of the natural-key columns for the `UNIQUE` constraint of
`health_records`: the nullable `end_date` column conflicts only when both
sides are non-`NULL` and equal (SQLite treats `NULL`s as distinct). -/
def sqlKeyConflict (record : RecordInput) (end_date_iso : Option String)
    (row : HealthRow) : Bool :=
  row.record_type == record.record_type && row.source == record.source &&
  row.start_date == record.start_date &&
  (match row.end_date, end_date_iso with
   | some a, some b => a == b
   | _, _ => false)

/-- `HealthDatabase.insert_health_record`: `INSERT OR IGNORE` into
`health_records` keyed by `UNIQUE(record_type, source, start_date, end_date)`,
then upserts into `sources` and `record_types`. Returns `cursor.lastrowid` —
the fresh connection's `sqlite3_last_insert_rowid()`, which is 0 when the
insert was ignored (the autoincrement sequence starts at 1, so 0 is never a
real row id). -/
def insertHealthRecord (db : DB) (now : String) (record : RecordInput) :
    Nat × DB :=
  let end_date_iso := pyTruthyStr record.end_date
  let conflict := db.health_records.any (sqlKeyConflict record end_date_iso)
  if conflict then
    (0, updateRecordTypeInfo (updateSourceInfo db now record.source record.metadata)
      record.record_type)
  else
    let rid := db.next_record_id
    let row : HealthRow :=
      { id := rid, record_type := record.record_type, source := record.source,
        unit := record.unit, value := record.value, start_date := record.start_date,
        end_date := end_date_iso, metadata_json := record.metadata }
    let db1 := { db with health_records := db.health_records ++ [row],
                         next_record_id := rid + 1 }
    (rid, updateRecordTypeInfo (updateSourceInfo db1 now record.source record.metadata)
      record.record_type)

/-- The `health_record` dictionary `insert_workout` builds from its workout
argument before calling `insert_health_record`. -/
def workoutBackingRecord (w : WorkoutInput) : RecordInput :=
  { record_type := "Workout:" ++ w.workout_type, source := w.source,
    unit := some (w.duration_unit.getD "min"), value := some w.duration,
    start_date := w.start_date, end_date := some w.end_date, metadata := w.metadata }

/-- The `workouts` row written by `insert_workout` at a given id. -/
def workoutSideRow (w : WorkoutInput) (wid : Nat) : WorkoutRow :=
  { id := wid, workout_type := w.workout_type, source := w.source,
    duration := w.duration, duration_unit := w.duration_unit.getD "min",
    start_date := w.start_date, end_date := w.end_date,
    total_distance := w.total_distance, total_distance_unit := w.total_distance_unit,
    total_energy_burned := w.total_energy_burned,
    total_energy_burned_unit := w.total_energy_burned_unit,
    metadata_json := w.metadata }

/-- `HealthDatabase.insert_workout`: first inserts the generic record through
`insert_health_record` (its own transaction), then — on a second, separate
connection — `INSERT OR REPLACE` into `workouts` using the id returned by the
first step; on a dedup conflict that id is 0, so the side-row is written at
fixed id 0 (replacing any previous id-0 row). -/
def insertWorkout (db : DB) (now : String) (w : WorkoutInput) : Nat × DB :=
  let step1 := insertHealthRecord db now (workoutBackingRecord w)
  let rid := step1.1
  let db1 := step1.2
  (rid, { db1 with
          workouts := db1.workouts.filter (fun x => x.id != rid) ++ [workoutSideRow w rid] })

/-- `HealthDatabase.clear_database`: deletes all rows of every table in one
transaction (the `AUTOINCREMENT` sequence of `health_records` survives a
`DELETE FROM`). -/
def clearDatabase (db : DB) : DB :=
  { health_records := [], next_record_id := db.next_record_id,
    workouts := [], sources := [], record_types := [] }

/-- Insert a row into a list kept nondecreasing by `start_date`
(the embedding of `ORDER BY start_date`). -/
def insertSortedByStart (r : HealthRow) : List HealthRow → List HealthRow
  | [] => [r]
  | x :: xs =>
    if strLe r.start_date x.start_date then r :: x :: xs
    else x :: insertSortedByStart r xs

/-- Sort rows by `start_date` nondecreasingly. -/
def sortByStart (l : List HealthRow) : List HealthRow :=
  l.foldr insertSortedByStart []

/-- `HealthDatabase.get_records_by_date_range`: `start_date BETWEEN ? AND ?`
(inclusive on both ends), optional type filter (Python `if record_type:` also
drops an empty-string filter), `ORDER BY start_date`. -/
def getRecordsByDateRange (db : DB) (start_date end_date : String)
    (record_type : Option String) : List HealthRow :=
  let inWindow := fun (r : HealthRow) =>
    strLe start_date r.start_date && strLe r.start_date end_date
  match record_type with
  | some t =>
    if t = "" then sortByStart (db.health_records.filter inWindow)
    else sortByStart (db.health_records.filter (fun r => r.record_type == t && inWindow r))
  | none => sortByStart (db.health_records.filter inWindow)

/-- SQLite `DATE()` applied to an ISO datetime string: its date part. -/
def sqlDateOf (s : String) : String := s.take 10

/-- Insert a date into a strictly increasing duplicate-free list. -/
def insertDateSorted (d : String) : List String → List String
  | [] => [d]
  | x :: xs =>
    if d == x then x :: xs
    else if strLe d x then d :: x :: xs
    else x :: insertDateSorted d xs

/-- The distinct `DATE(start_date)` values of a row list, ascending
(the embedding of `GROUP BY DATE(start_date) ORDER BY date`). -/
def datesOf (rows : List HealthRow) : List String :=
  rows.foldr (fun r acc => insertDateSorted (sqlDateOf r.start_date) acc) []

/-- SQL `MIN` aggregate over the non-`NULL` values. -/
def listMinQ : List Rat → Option Rat
  | [] => none
  | x :: xs =>
    match listMinQ xs with
    | none => some x
    | some m => some (min x m)

/-- SQL `MAX` aggregate over the non-`NULL` values. -/
def listMaxQ : List Rat → Option Rat
  | [] => none
  | x :: xs =>
    match listMaxQ xs with
    | none => some x
    | some m => some (max x m)

/-- One result row of `get_daily_aggregates`. -/
structure DailyAggregate where
  date : String
  avg_value : Option Rat
  min_value : Option Rat
  max_value : Option Rat
  count : Nat
deriving Repr, DecidableEq

/-- The rows selected by the `WHERE` clause of `get_daily_aggregates`:
matching type, `start_date BETWEEN ? AND ?` (inclusive both ends). -/
def matchingRows (db : DB) (record_type start_date end_date : String) : List HealthRow :=
  db.health_records.filter (fun r =>
    r.record_type == record_type && strLe start_date r.start_date &&
    strLe r.start_date end_date)

/-- The `GROUP BY DATE(start_date)` group of one calendar day. -/
def dayRows (db : DB) (record_type start_date end_date d : String) : List HealthRow :=
  (matchingRows db record_type start_date end_date).filter
    (fun r => sqlDateOf r.start_date == d)

/-- The non-`NULL` values a day's SQL aggregates range over. -/
def dayValues (db : DB) (record_type start_date end_date d : String) : List Rat :=
  (dayRows db record_type start_date end_date d).filterMap (fun r => r.value)

/-- `HealthDatabase.get_daily_aggregates`: rows of the type with
`start_date BETWEEN ? AND ?`, grouped by `DATE(start_date)`, with
`AVG`/`MIN`/`MAX` over the non-`NULL` values and `COUNT(*)` over all rows of
the group, ordered by date. -/
def getDailyAggregates (db : DB) (record_type : String)
    (start_date end_date : String) : List DailyAggregate :=
  (datesOf (matchingRows db record_type start_date end_date)).map (fun d =>
    let vals := dayValues db record_type start_date end_date d
    { date := d,
      avg_value :=
        if vals.isEmpty then none
        else some (vals.sum / (vals.length : Rat)),
      min_value := listMinQ vals,
      max_value := listMaxQ vals,
      count := (dayRows db record_type start_date end_date d).length })

/-- The category recorded for a type name, if a `record_types` row exists. -/
def lookupCategory (db : DB) (type_name : String) : Option String :=
  (db.record_types.find? (fun rt => rt.type_name == type_name)).map (·.category)

/-! ## Schema validator (`schema_validator.py`) -/

/-- A Python value as seen by the `jsonschema` Draft 7 validator. `pydt` is a
`datetime.datetime` object (which is not a JSON string and fails the
`"type": "string"` check). -/
inductive JVal where
  | jnull
  | jbool (b : Bool)
  | jnum (q : Rat)
  | jstr (s : String)
  | jarr (items : List JVal)
  | jobj (fields : List (String × JVal))
  | pydt (iso : String)

/-- The candidate dictionary handed to `validate_health_record`; a `none`
field is an absent key. -/
structure Candidate where
  record_type : Option JVal := none
  source : Option JVal := none
  unit : Option JVal := none
  value : Option JVal := none
  start_date : Option JVal := none
  end_date : Option JVal := none
  metadata : Option JVal := none

/-- Draft 7 `{"type": "string", "minLength": 1}`. -/
def isStrMin1 : JVal → Bool
  | .jstr s => decide (1 ≤ s.length)
  | _ => false

/-- Draft 7 `{"type": "string"}` (a `format` annotation is not checked by the
default `jsonschema` validator). -/
def isStrJ : JVal → Bool
  | .jstr _ => true
  | _ => false

/-- Draft 7 `{"type": ["string", "null"]}`. -/
def isStrOrNull : JVal → Bool
  | .jstr _ => true
  | .jnull => true
  | _ => false

/-- Draft 7 `{"type": "number"}` (Python booleans are excluded by
`jsonschema`). -/
def isNumJ : JVal → Bool
  | .jnum _ => true
  | _ => false

/-- Draft 7 `{"type": "object"}`. -/
def isObjJ : JVal → Bool
  | .jobj _ => true
  | _ => false

/-- A property schema constrains a key only when the key is present. -/
def checkOpt (o : Option JVal) (p : JVal → Bool) : Bool :=
  match o with
  | none => true
  | some v => p v

/-- `SchemaValidator.validate_health_record` against the default schema's
`health_records.items`: the four required keys must be present, and every
present key must satisfy its property schema. No relation between
`start_date` and `end_date` is checked, and the `date-time` format
annotations are ignored by the default Draft 7 validator. -/
def validate_health_record (c : Candidate) : Bool :=
  c.record_type.isSome && c.source.isSome && c.value.isSome && c.start_date.isSome &&
  checkOpt c.record_type isStrMin1 && checkOpt c.source isStrMin1 &&
  checkOpt c.unit isStrOrNull && checkOpt c.value isNumJ &&
  checkOpt c.start_date isStrJ && checkOpt c.end_date isStrOrNull &&
  checkOpt c.metadata isObjJ

/-! ## Parser (`health_parser.py`) -/

/-- The Python exceptions that can escape the parsing helpers. -/
inductive PyErr where
  | valueError
  | typeError
  | indexError
  | attributeError
deriving Repr, DecidableEq

instance {ε α : Type} [DecidableEq ε] [DecidableEq α] : DecidableEq (Except ε α) := fun x y =>
  match x, y with
  | .error a, .error b =>
    match decEq a b with
    | isTrue h => isTrue (by rw [h])
    | isFalse h => isFalse (by intro hc; injection hc; exact h ‹_›)
  | .error _, .ok _ => isFalse (by intro hc; cases hc)
  | .ok _, .error _ => isFalse (by intro hc; cases hc)
  | .ok a, .ok b =>
    match decEq a b with
    | isTrue h => isTrue (by rw [h])
    | isFalse h => isFalse (by intro hc; injection hc; exact h ‹_›)

/-- An `xml.etree.ElementTree` element. -/
inductive XmlElem where
  | mk (tag : String) (attrs : List (String × String)) (children : List XmlElem)
      (text : Option String)

/-- The element's tag. -/
def XmlElem.tag : XmlElem → String
  | .mk t _ _ _ => t

/-- The element's attribute dictionary. -/
def XmlElem.attrs : XmlElem → List (String × String)
  | .mk _ a _ _ => a

/-- The element's child elements. -/
def XmlElem.children : XmlElem → List XmlElem
  | .mk _ _ c _ => c

/-- The element's text, `None` when empty. -/
def XmlElem.text : XmlElem → Option String
  | .mk _ _ _ t => t

/-- Python `elem.get(key)`. -/
def attrGet (e : XmlElem) (k : String) : Option String :=
  assocGet e.attrs k

/-- Python `elem.find(tag)`: first child with the tag. -/
def findChild (e : XmlElem) (t : String) : Option XmlElem :=
  e.children.find? (fun c => c.tag == t)

/-- Are all characters decimal digits? (Vacuously true of `""`.) -/
def allDigits (s : String) : Bool :=
  s.toList.all Char.isDigit

/-- Numeric value of a digit string. -/
def digitsToNat (s : String) : Nat :=
  s.toList.foldl (fun n c => n * 10 + (c.toNat - 48)) 0

/-- Gregorian leap-year test. -/
def isLeapYear (y : Nat) : Bool :=
  (y % 4 == 0 && y % 100 != 0) || y % 400 == 0

/-- Days in a month of a year. -/
def daysInMonth (y mo : Nat) : Nat :=
  if mo = 2 then (if isLeapYear y then 29 else 28)
  else if mo = 4 || mo = 6 || mo = 9 || mo = 11 then 30
  else 31

/-- Does `strptime(s, "%Y-%m-%d %H:%M:%S")` succeed? `%Y` wants exactly four
digits; the other fields accept one or two digits within range, and the day
must exist in the month. -/
def isFixedDateTime (s : String) : Bool :=
  match pySplit s ' ' with
  | [d, t] =>
    (match pySplit d '-', pySplit t ':' with
     | [y, mo, da], [h, mi, se] =>
       y.length == 4 && allDigits y &&
       decide (1 ≤ mo.length) && decide (mo.length ≤ 2) && allDigits mo &&
       decide (1 ≤ da.length) && decide (da.length ≤ 2) && allDigits da &&
       decide (1 ≤ h.length) && decide (h.length ≤ 2) && allDigits h &&
       decide (1 ≤ mi.length) && decide (mi.length ≤ 2) && allDigits mi &&
       decide (1 ≤ se.length) && decide (se.length ≤ 2) && allDigits se &&
       decide (1 ≤ digitsToNat mo) && decide (digitsToNat mo ≤ 12) &&
       decide (1 ≤ digitsToNat da) &&
       decide (digitsToNat da ≤ daysInMonth (digitsToNat y) (digitsToNat mo)) &&
       decide (digitsToNat h ≤ 23) && decide (digitsToNat mi ≤ 59) &&
       decide (digitsToNat se ≤ 59)
     | _, _ => false)
  | _ => false

/-- A `YYYY-MM-DD` calendar date with two-digit month and day, as required by
`datetime.fromisoformat`. -/
def isIsoDateStr (d : String) : Bool :=
  match pySplit d '-' with
  | [y, mo, da] =>
    y.length == 4 && allDigits y && mo.length == 2 && allDigits mo &&
    da.length == 2 && allDigits da &&
    decide (1 ≤ digitsToNat mo) && decide (digitsToNat mo ≤ 12) &&
    decide (1 ≤ digitsToNat da) &&
    decide (digitsToNat da ≤ daysInMonth (digitsToNat y) (digitsToNat mo))
  | _ => false

/-- An `HH:MM[:SS[.ffffff]]` time-of-day, as accepted by
`datetime.fromisoformat`. -/
def isIsoTimeStr (t : String) : Bool :=
  match pySplit t ':' with
  | [h, mi] =>
    h.length == 2 && allDigits h && mi.length == 2 && allDigits mi &&
    decide (digitsToNat h ≤ 23) && decide (digitsToNat mi ≤ 59)
  | [h, mi, se] =>
    h.length == 2 && allDigits h && mi.length == 2 && allDigits mi &&
    decide (digitsToNat h ≤ 23) && decide (digitsToNat mi ≤ 59) &&
    (match pySplit se '.' with
     | [ss] => ss.length == 2 && allDigits ss && decide (digitsToNat ss ≤ 59)
     | [ss, frac] =>
       ss.length == 2 && allDigits ss && decide (digitsToNat ss ≤ 59) &&
       (frac.length == 3 || frac.length == 6) && allDigits frac
     | _ => false)
  | _ => false

/-- An `HH:MM[:SS]` UTC-offset body, as accepted by
`datetime.fromisoformat` after a sign. -/
def isIsoOffsetStr (off : String) : Bool :=
  match pySplit off ':' with
  | [h, mi] =>
    h.length == 2 && allDigits h && mi.length == 2 && allDigits mi &&
    decide (digitsToNat mi ≤ 59)
  | [h, mi, se] =>
    h.length == 2 && allDigits h && mi.length == 2 && allDigits mi &&
    se.length == 2 && allDigits se &&
    decide (digitsToNat mi ≤ 59) && decide (digitsToNat se ≤ 59)
  | _ => false

/-- Does `datetime.fromisoformat(s)` succeed? Models the date, an optional
single separator character, a time of day, and an optional signed offset —
the shapes the Apple export and this code base produce. -/
def pyFromIsoOk (s : String) : Bool :=
  if s.length ≤ 10 then isIsoDateStr s
  else
    isIsoDateStr (s.take 10) &&
    (let rest := (s.drop 10).drop 1
     match pySplit rest '+' with
     | [t, off] => isIsoTimeStr t && isIsoOffsetStr off
     | [t] =>
       (match pySplit t '-' with
        | [t0, off] => isIsoTimeStr t0 && isIsoOffsetStr off
        | [t0] => isIsoTimeStr t0
        | _ => false)
     | _ => false)

/-- Python `s.replace("Z", "+00:00")` on the character level. -/
def replaceZChars : List Char → List Char
  | [] => []
  | c :: cs =>
    if c == 'Z' then '+' :: '0' :: '0' :: ':' :: '0' :: '0' :: replaceZChars cs
    else c :: replaceZChars cs

/-- Python `s.replace("Z", "+00:00")`. -/
def replaceZStr (s : String) : String :=
  String.mk (replaceZChars s.toList)

/-- Drop leading whitespace characters. -/
def dropLeadingWs : List Char → List Char
  | [] => []
  | c :: cs => if c.isWhitespace then dropLeadingWs cs else c :: cs

/-- Python `s.strip()` as performed by `float()` on its argument. -/
def pyStrip (s : String) : String :=
  String.mk ((dropLeadingWs (dropLeadingWs s.toList.reverse).reverse))

/-- `AppleHealthParser._parse_apple_date`. `date_str.split(' ')[1]` raises an
uncaught `IndexError` when the text holds no space — the local handler
catches only `ValueError` (from `strptime`, answered by the
`fromisoformat` fallback). A successfully parsed datetime is represented by
its normalized text. -/
def parseAppleDate (date_str : String) : Except PyErr String :=
  match pySplit date_str ' ' with
  | p0 :: p1 :: _ =>
    let clean := p0 ++ " " ++ p1
    if isFixedDateTime clean then .ok clean
    else
      let isoInput := replaceZStr date_str
      if pyFromIsoOk isoInput then .ok isoInput else .error .valueError
  | _ => .error .indexError

/-- Subset of Python `float(text)`: optional surrounding whitespace, optional
sign, decimal digits with an optional fractional part. (Exponent forms and
`nan`/`inf`, which health values never use, are outside the model.) -/
def parsePyFloat (t0 : String) : Option Rat :=
  let t := pyStrip t0
  let signBody : Int × String :=
    match t.toList with
    | '+' :: rest => (1, String.mk rest)
    | '-' :: rest => (-1, String.mk rest)
    | _ => (1, t)
  let sgn := signBody.1
  let body := signBody.2
  match pySplit body '.' with
  | [ip] =>
    if ip ≠ "" && allDigits ip then some ((sgn * (digitsToNat ip : Int) : Int) : Rat)
    else none
  | [ip, fp] =>
    if (ip ≠ "" || fp ≠ "") && allDigits ip && allDigits fp then
      some ((sgn : Rat) * ((digitsToNat ip : Rat) +
        (digitsToNat fp : Rat) / ((10 : Rat) ^ fp.length)))
    else none
  | _ => none

/-- Python `float(text)`, raising `ValueError` on non-numeric text. -/
def pyFloatStr (t : String) : Except PyErr Rat :=
  match parsePyFloat t with
  | some q => .ok q
  | none => .error .valueError

/-- The `HealthRecord` dataclass as produced by `_parse_record_element`
(`record_type` may be `None` when the `type` attribute is absent). -/
structure ParsedRecord where
  record_type : Option String
  source : String
  unit : Option String
  value : Rat
  start_date : String
  end_date : Option String
  metadata : List (String × Option String)
deriving Repr, DecidableEq

/-- Set a key in the metadata dictionary (Python dict assignment). -/
def assocSetMeta (m : List (String × Option String)) (k : String) (v : Option String) :
    List (String × Option String) :=
  if m.any (fun p => p.1 == k) then
    m.map (fun p => if p.1 == k then (p.1, v) else p)
  else m ++ [(k, v)]

/-- The metadata dictionary built by `_parse_record_element`: the text of
every child not named `Value`/`StartDate`/`EndDate`, then the truthy
`sourceVersion` and `device` attributes. -/
def recordMetadata (e : XmlElem) : List (String × Option String) :=
  let base := (e.children.filter (fun c =>
      !(c.tag == "Value" || c.tag == "StartDate" || c.tag == "EndDate"))).foldl
    (fun m c => assocSetMeta m c.tag c.text) []
  let m1 := match attrGet e "sourceVersion" with
    | some sv => if sv = "" then base else assocSetMeta base "sourceVersion" (some sv)
    | none => base
  match attrGet e "device" with
  | some d => if d = "" then m1 else assocSetMeta m1 "device" (some d)
  | none => m1

/-- Body of `_parse_record_element` before its exception handler: any raised
exception is an `Except.error`; `ok none` is an early `return None` (drop). -/
def parseRecordBody (e : XmlElem) : Except PyErr (Option ParsedRecord) := do
  let record_type := attrGet e "type"
  let source := (attrGet e "sourceName").getD "Unknown"
  let unit := attrGet e "unit"
  let value? : Option Rat ←
    match findChild e "Value" with
    | some v =>
      match v.text with
      | none => throw .typeError
      | some t => (pyFloatStr t).map some
    | none =>
      match attrGet e "value" with
      | some t => if t = "" then pure none else (pyFloatStr t).map some
      | none => pure none
  match value? with
  | none => return none
  | some value =>
    let dates? : Option (String × Option String) ←
      match findChild e "StartDate" with
      | some sdElem =>
        (match sdElem.text with
         | none => throw .attributeError
         | some sdt => do
           let sd ← parseAppleDate sdt
           match findChild e "EndDate" with
           | some edElem =>
             match edElem.text with
             | none => throw .attributeError
             | some edt => do
               let ed ← parseAppleDate edt
               pure (some (sd, some ed))
           | none => pure (some (sd, none)))
      | none =>
        (match attrGet e "startDate" with
         | some sdt =>
           if sdt = "" then pure none
           else do
             let sd ← parseAppleDate sdt
             match attrGet e "endDate" with
             | some edt =>
               if edt = "" then pure (some (sd, none))
               else do
                 let ed ← parseAppleDate edt
                 pure (some (sd, some ed))
             | none => pure (some (sd, none))
         | none => pure none)
    match dates? with
    | none => return none
    | some dates =>
      return some
        { record_type := record_type, source := source, unit := unit,
          value := value, start_date := dates.1, end_date := dates.2,
          metadata := recordMetadata e }

/-- `AppleHealthParser._parse_record_element`: the handler catches only
`ValueError` and `AttributeError` (returning `None`, i.e. drop); any other
exception propagates to the caller. -/
def parseRecordElement (e : XmlElem) : Except PyErr (Option ParsedRecord) :=
  match parseRecordBody e with
  | .error .valueError => .ok none
  | .error .attributeError => .ok none
  | other => other

/-- The `Record` loop of `_parse_xml`: parse each element in order, skipping
the dropped ones; an exception escaping `_parse_record_element` aborts the
whole stream. -/
def parseRecordStream : List XmlElem → Except PyErr (List ParsedRecord)
  | [] => .ok []
  | e :: es =>
    match parseRecordElement e with
    | .error err => .error err
    | .ok none => parseRecordStream es
    | .ok (some r) => (parseRecordStream es).map (fun rs => r :: rs)

/-- The input to `_parse_xml`: either a file `ElementTree` cannot parse at
all, or a readable root with its `Record` elements in document order. -/
inductive XmlInput where
  | unreadable
  | document (records : List XmlElem)

/-- `AppleHealthParser._parse_xml` restricted to `Record` elements: an
`ET.ParseError` is re-raised as the fatal `ValueError` format error;
otherwise the element loop runs. -/
def parseXmlStream (x : XmlInput) : Except PyErr (List ParsedRecord) :=
  match x with
  | .unreadable => .error .valueError
  | .document recs => parseRecordStream recs

/-! ## Concrete inputs used by witnesses and counterexamples -/

/-- A step-count record with a `None` end date. -/
def rNull : RecordInput :=
  { record_type := "HKQuantityTypeIdentifierStepCount", source := "iPhone",
    unit := some "count", value := some 100,
    start_date := "2024-01-05T10:00:00", end_date := none, metadata := [] }

/-- The same record with a concrete end date. -/
def rFull : RecordInput :=
  { rNull with end_date := some "2024-01-05T10:05:00" }

/-- A running workout. -/
def wEx : WorkoutInput :=
  { workout_type := "Running", source := "Watch", duration := 30,
    duration_unit := some "min", start_date := "2024-03-01T08:00:00",
    end_date := "2024-03-01T08:30:00", total_distance := some 5,
    total_distance_unit := some "km", total_energy_burned := some 300,
    total_energy_burned_unit := some "kcal", metadata := [] }

/-- A one-row store whose record starts exactly at a window's upper end. -/
def dbEdge : DB :=
  { emptyDB with health_records :=
      [{ id := 1, record_type := "HeartRate", source := "W", unit := none,
         value := some 60, start_date := "2024-01-02T00:00:00", end_date := none,
         metadata_json := [] }] }

/-- A two-day heart-rate store for aggregate witnesses. -/
def dbAgg : DB :=
  { emptyDB with health_records :=
      [{ id := 1, record_type := "HR", source := "W", unit := none, value := some 60,
         start_date := "2024-01-02T08:00:00", end_date := none, metadata_json := [] },
       { id := 2, record_type := "HR", source := "W", unit := none, value := some 80,
         start_date := "2024-01-02T09:00:00", end_date := none, metadata_json := [] },
       { id := 3, record_type := "HR", source := "W", unit := none, value := some 90,
         start_date := "2024-01-01T09:00:00", end_date := none, metadata_json := [] }] }

/-- A `Record` element whose `startDate` text holds no space character. -/
def badElem : XmlElem :=
  .mk "Record" [("type", "HKQuantityTypeIdentifierStepCount"), ("sourceName", "iPhone"),
    ("value", "1"), ("startDate", "garbage")] [] none

/-- A well-formed `Record` element. -/
def goodElem : XmlElem :=
  .mk "Record" [("type", "HKQuantityTypeIdentifierStepCount"), ("sourceName", "iPhone"),
    ("value", "1"), ("startDate", "2024-01-05 10:00:00 +0200")] [] none

/-- A `Record` element with a non-numeric value text. -/
def badValueElem : XmlElem :=
  .mk "Record" [("type", "T"), ("value", "abc"),
    ("startDate", "2024-01-05 10:00:00 +0200")] [] none

/-! ## Helper lemmas -/

theorem updateRecordTypeInfo_health_records (db : DB) (t : String) :
    (updateRecordTypeInfo db t).health_records = db.health_records := by
  unfold updateRecordTypeInfo; split <;> rfl

theorem updateRecordTypeInfo_workouts (db : DB) (t : String) :
    (updateRecordTypeInfo db t).workouts = db.workouts := by
  unfold updateRecordTypeInfo; split <;> rfl

theorem updateRecordTypeInfo_next (db : DB) (t : String) :
    (updateRecordTypeInfo db t).next_record_id = db.next_record_id := by
  unfold updateRecordTypeInfo; split <;> rfl

theorem updateSourceInfo_health_records (db : DB) (now sn : String)
    (m : List (String × String)) :
    (updateSourceInfo db now sn m).health_records = db.health_records := by
  unfold updateSourceInfo; split <;> rfl

theorem updateSourceInfo_workouts (db : DB) (now sn : String)
    (m : List (String × String)) :
    (updateSourceInfo db now sn m).workouts = db.workouts := by
  unfold updateSourceInfo; split <;> rfl

theorem updateSourceInfo_next (db : DB) (now sn : String)
    (m : List (String × String)) :
    (updateSourceInfo db now sn m).next_record_id = db.next_record_id := by
  unfold updateSourceInfo; split <;> rfl

theorem updateSourceInfo_record_types (db : DB) (now sn : String)
    (m : List (String × String)) :
    (updateSourceInfo db now sn m).record_types = db.record_types := by
  unfold updateSourceInfo; split <;> rfl

/-- The `health_records` row written by a fresh (non-conflicting) insert. -/
def insertedRow (db : DB) (record : RecordInput) : HealthRow :=
  { id := db.next_record_id, record_type := record.record_type,
    source := record.source, unit := record.unit, value := record.value,
    start_date := record.start_date, end_date := pyTruthyStr record.end_date,
    metadata_json := record.metadata }

/-- Case analysis of `insert_health_record`: either the natural key conflicts
and the records table is untouched with `lastrowid = 0`, or the row is
appended with the fresh autoincrement id. -/
theorem insertHealthRecord_cases (db : DB) (now : String) (record : RecordInput) :
    (db.health_records.any (sqlKeyConflict record (pyTruthyStr record.end_date)) = true ∧
      (insertHealthRecord db now record).1 = 0 ∧
      (insertHealthRecord db now record).2.health_records = db.health_records ∧
      (insertHealthRecord db now record).2.next_record_id = db.next_record_id) ∨
    (db.health_records.any (sqlKeyConflict record (pyTruthyStr record.end_date)) = false ∧
      (insertHealthRecord db now record).1 = db.next_record_id ∧
      (insertHealthRecord db now record).2.health_records
        = db.health_records ++ [insertedRow db record] ∧
      (insertHealthRecord db now record).2.next_record_id = db.next_record_id + 1) := by
  cases hc : db.health_records.any (sqlKeyConflict record (pyTruthyStr record.end_date)) with
  | false =>
    right
    refine ⟨rfl, ?_, ?_, ?_⟩ <;>
      simp [insertHealthRecord, hc, updateRecordTypeInfo_health_records,
        updateSourceInfo_health_records, updateRecordTypeInfo_next,
        updateSourceInfo_next, insertedRow]
  | true =>
    left
    refine ⟨rfl, ?_, ?_, ?_⟩ <;>
      simp [insertHealthRecord, hc, updateRecordTypeInfo_health_records,
        updateSourceInfo_health_records, updateRecordTypeInfo_next,
        updateSourceInfo_next]

theorem insertHealthRecord_workouts (db : DB) (now : String) (record : RecordInput) :
    (insertHealthRecord db now record).2.workouts = db.workouts := by
  cases hc : db.health_records.any (sqlKeyConflict record (pyTruthyStr record.end_date)) <;>
    simp [insertHealthRecord, hc, updateRecordTypeInfo_workouts, updateSourceInfo_workouts]

theorem charListLe_total : ∀ as bs : List Char, charListLe as bs = true ∨ charListLe bs as = true
  | [], _ => Or.inl rfl
  | _ :: _, [] => Or.inr rfl
  | a :: as, b :: bs => by
    rcases Nat.lt_trichotomy a.toNat b.toNat with h | h | h
    · left; simp [charListLe, h]
    · rcases charListLe_total as bs with ih | ih
      · left; simp [charListLe, h, ih]
      · right; simp [charListLe, h.symm, ih]
    · right; simp [charListLe, h]

theorem strLe_total (a b : String) : strLe a b = true ∨ strLe b a = true :=
  charListLe_total a.toList b.toList

theorem strLe_of_not_strLe {a b : String} (h : strLe a b = false) : strLe b a = true := by
  rcases strLe_total a b with h1 | h1
  · rw [h1] at h; cases h
  · exact h1

theorem strLt_of_not_le_ne {a b : String} (h : strLe a b = false) (hne : (a == b) = false) :
    strLt b a = true := by
  have hba := strLe_of_not_strLe h
  have : (b == a) = false := by
    rcases Bool.eq_false_iff.mp hne with _
    exact beq_eq_false_iff_ne.mpr fun hc => (beq_eq_false_iff_ne.mp hne) hc.symm
  simp [strLt, hba, this]

theorem mem_insertSortedByStart (r x : HealthRow) (l : List HealthRow) :
    x ∈ insertSortedByStart r l ↔ x = r ∨ x ∈ l := by
  induction l with
  | nil => simp [insertSortedByStart]
  | cons y ys ih =>
    by_cases h : strLe r.start_date y.start_date = true
    · simp [insertSortedByStart, h]
    · rw [Bool.not_eq_true] at h
      simp [insertSortedByStart, h, ih]
      tauto

theorem head?_insertSortedByStart (r : HealthRow) (l : List HealthRow) :
    (insertSortedByStart r l).head? = some r ∨ (insertSortedByStart r l).head? = l.head? := by
  cases l with
  | nil => left; rfl
  | cons y ys =>
    by_cases h : strLe r.start_date y.start_date = true
    · left; simp [insertSortedByStart, h]
    · right; rw [Bool.not_eq_true] at h; simp [insertSortedByStart, h]

theorem chain_insertSortedByStart (r : HealthRow) (l : List HealthRow)
    (h : List.Chain' (fun a b => strLe a.start_date b.start_date = true) l) :
    List.Chain' (fun a b => strLe a.start_date b.start_date = true)
      (insertSortedByStart r l) := by
  induction l with
  | nil => simp [insertSortedByStart]
  | cons y ys ih =>
    rw [List.chain'_cons'] at h
    by_cases hle : strLe r.start_date y.start_date = true
    · simp only [insertSortedByStart, hle, if_pos]
      rw [List.chain'_cons]
      exact ⟨hle, List.chain'_cons'.mpr h⟩
    · rw [Bool.not_eq_true] at hle
      simp only [insertSortedByStart, hle, Bool.false_eq_true, if_false]
      rw [List.chain'_cons']
      refine ⟨?_, ih h.2⟩
      intro b hb
      rcases head?_insertSortedByStart r ys with hh | hh
      · rw [hh] at hb
        cases hb
        exact strLe_of_not_strLe hle
      · rw [hh] at hb
        exact h.1 b hb

theorem mem_sortByStart (x : HealthRow) (l : List HealthRow) :
    x ∈ sortByStart l ↔ x ∈ l := by
  induction l with
  | nil => simp [sortByStart]
  | cons y ys ih =>
    have : sortByStart (y :: ys) = insertSortedByStart y (sortByStart ys) := rfl
    rw [this, mem_insertSortedByStart, ih]
    simp

theorem chain_sortByStart (l : List HealthRow) :
    List.Chain' (fun a b => strLe a.start_date b.start_date = true) (sortByStart l) := by
  induction l with
  | nil => simp [sortByStart]
  | cons y ys ih => exact chain_insertSortedByStart y (sortByStart ys) ih

theorem mem_insertDateSorted (d y : String) (l : List String) :
    y ∈ insertDateSorted d l ↔ y = d ∨ y ∈ l := by
  induction l with
  | nil => simp [insertDateSorted]
  | cons x xs ih =>
    by_cases he : (d == x) = true
    · have hdx : d = x := by exact beq_iff_eq.mp he
      simp [insertDateSorted, he, hdx]
    · rw [Bool.not_eq_true] at he
      by_cases hle : strLe d x = true
      · simp [insertDateSorted, he, hle]
      · rw [Bool.not_eq_true] at hle
        simp [insertDateSorted, he, hle, ih]
        tauto

theorem head?_insertDateSorted (d : String) (l : List String) :
    (insertDateSorted d l).head? = some d ∨ (insertDateSorted d l).head? = l.head? := by
  cases l with
  | nil => left; rfl
  | cons x xs =>
    by_cases he : (d == x) = true
    · right; simp [insertDateSorted, he]
    · rw [Bool.not_eq_true] at he
      by_cases hle : strLe d x = true
      · left; simp [insertDateSorted, he, hle]
      · rw [Bool.not_eq_true] at hle
        right; simp [insertDateSorted, he, hle]

theorem chain_insertDateSorted (d : String) (l : List String)
    (h : List.Chain' (fun a b => strLt a b = true) l) :
    List.Chain' (fun a b => strLt a b = true) (insertDateSorted d l) := by
  induction l with
  | nil => simp [insertDateSorted]
  | cons x xs ih =>
    rw [List.chain'_cons'] at h
    by_cases he : (d == x) = true
    · simp only [insertDateSorted, he, if_pos]
      exact List.chain'_cons'.mpr h
    · rw [Bool.not_eq_true] at he
      by_cases hle : strLe d x = true
      · simp only [insertDateSorted, he, Bool.false_eq_true, if_false, hle, if_pos]
        rw [List.chain'_cons]
        refine ⟨?_, List.chain'_cons'.mpr h⟩
        simp [strLt, hle, he]
      · rw [Bool.not_eq_true] at hle
        simp only [insertDateSorted, he, Bool.false_eq_true, if_false, hle]
        rw [List.chain'_cons']
        refine ⟨?_, ih h.2⟩
        intro b hb
        rcases head?_insertDateSorted d xs with hh | hh
        · rw [hh] at hb
          cases hb
          exact strLt_of_not_le_ne hle he
        · rw [hh] at hb
          exact h.1 b hb

theorem chain_datesOf (rows : List HealthRow) :
    List.Chain' (fun a b => strLt a b = true) (datesOf rows) := by
  induction rows with
  | nil => simp [datesOf]
  | cons r rs ih => exact chain_insertDateSorted (sqlDateOf r.start_date) (datesOf rs) ih

theorem mem_datesOf (d : String) (rows : List HealthRow) :
    d ∈ datesOf rows ↔ ∃ r ∈ rows, sqlDateOf r.start_date = d := by
  induction rows with
  | nil => simp [datesOf]
  | cons r rs ih =>
    have : datesOf (r :: rs) = insertDateSorted (sqlDateOf r.start_date) (datesOf rs) := rfl
    rw [this, mem_insertDateSorted, ih]
    constructor
    · rintro (h | ⟨x, hx, hxd⟩)
      · exact ⟨r, List.mem_cons_self r rs, h.symm⟩
      · exact ⟨x, List.mem_cons_of_mem r hx, hxd⟩
    · rintro ⟨x, hx, hxd⟩
      rcases List.mem_cons.mp hx with hx | hx
      · left; rw [hx] at hxd; exact hxd.symm
      · right; exact ⟨x, hx, hxd⟩

theorem listMinQ_spec : ∀ l : List Rat, l ≠ [] →
    ∃ m, listMinQ l = some m ∧ m ∈ l ∧ ∀ v ∈ l, m ≤ v
  | [], h => absurd rfl h
  | x :: xs, _ => by
    cases xs with
    | nil =>
      refine ⟨x, by simp [listMinQ], by simp, ?_⟩
      intro v hv
      simp at hv
      rw [hv]
    | cons y ys =>
      obtain ⟨m, hm, hmem, hbd⟩ := listMinQ_spec (y :: ys) (by simp)
      refine ⟨min x m, ?_, ?_, ?_⟩
      · have hstep : listMinQ (x :: y :: ys) =
            match listMinQ (y :: ys) with
            | none => some x
            | some m => some (min x m) := rfl
        rw [hstep, hm]
      · rcases le_total x m with hxm | hxm
        · simp [min_eq_left hxm]
        · rw [min_eq_right hxm]
          exact List.mem_cons_of_mem x hmem
      · intro v hv
        rcases List.mem_cons.mp hv with hv | hv
        · rw [hv]; exact min_le_left x m
        · exact le_trans (min_le_right x m) (hbd v hv)

theorem listMaxQ_spec : ∀ l : List Rat, l ≠ [] →
    ∃ m, listMaxQ l = some m ∧ m ∈ l ∧ ∀ v ∈ l, v ≤ m
  | [], h => absurd rfl h
  | x :: xs, _ => by
    cases xs with
    | nil =>
      refine ⟨x, by simp [listMaxQ], by simp, ?_⟩
      intro v hv
      simp at hv
      rw [hv]
    | cons y ys =>
      obtain ⟨m, hm, hmem, hbd⟩ := listMaxQ_spec (y :: ys) (by simp)
      refine ⟨max x m, ?_, ?_, ?_⟩
      · have hstep : listMaxQ (x :: y :: ys) =
            match listMaxQ (y :: ys) with
            | none => some x
            | some m => some (max x m) := rfl
        rw [hstep, hm]
      · rcases le_total x m with hxm | hxm
        · rw [max_eq_right hxm]
          exact List.mem_cons_of_mem x hmem
        · simp [max_eq_left hxm]
      · intro v hv
        rcases List.mem_cons.mp hv with hv | hv
        · rw [hv]; exact le_max_left x m
        · exact le_trans (hbd v hv) (le_max_right x m)

theorem mul_card_le_sum (l : List Rat) (m : Rat) (h : ∀ v ∈ l, m ≤ v) :
    m * (l.length : Rat) ≤ l.sum := by
  induction l with
  | nil => simp
  | cons x xs ih =>
    have hx := h x (List.mem_cons_self x xs)
    have hxs := ih fun v hv => h v (List.mem_cons_of_mem x hv)
    simp only [List.length_cons, List.sum_cons]
    push_cast
    nlinarith

theorem sum_le_mul_card (l : List Rat) (m : Rat) (h : ∀ v ∈ l, v ≤ m) :
    l.sum ≤ m * (l.length : Rat) := by
  induction l with
  | nil => simp
  | cons x xs ih =>
    have hx := h x (List.mem_cons_self x xs)
    have hxs := ih fun v hv => h v (List.mem_cons_of_mem x hv)
    simp only [List.length_cons, List.sum_cons]
    push_cast
    nlinarith

theorem lookupCategory_congr (db1 db2 : DB) (n : String)
    (h : db1.record_types = db2.record_types) :
    lookupCategory db1 n = lookupCategory db2 n := by
  unfold lookupCategory
  rw [h]

theorem lookupCategory_updateRecordTypeInfo_stable (db : DB) (t n c : String)
    (h : lookupCategory db n = some c) :
    lookupCategory (updateRecordTypeInfo db t) n = some c := by
  unfold updateRecordTypeInfo
  cases hf : db.record_types.find? (fun rt => rt.type_name == t) with
  | some _ => exact h
  | none =>
    unfold lookupCategory at h ⊢
    rcases Option.map_eq_some'.mp h with ⟨row, hrow, hcat⟩
    simp only [List.find?_append, hrow]
    simp [hcat]

theorem lookupCategory_updateRecordTypeInfo_new (db : DB) (n : String)
    (h : lookupCategory db n = none) :
    lookupCategory (updateRecordTypeInfo db n) n = some (inferCategoryFromType n) := by
  have hf : db.record_types.find? (fun rt => rt.type_name == n) = none := by
    unfold lookupCategory at h
    exact Option.map_eq_none'.mp h
  unfold updateRecordTypeInfo
  rw [hf]
  unfold lookupCategory
  simp [List.find?_append, hf]

theorem lookupCategory_insertHealthRecord_stable (db : DB) (now : String)
    (record : RecordInput) (n c : String) (h : lookupCategory db n = some c) :
    lookupCategory (insertHealthRecord db now record).2 n = some c := by
  cases hc : db.health_records.any (sqlKeyConflict record (pyTruthyStr record.end_date)) with
  | true =>
    simp only [insertHealthRecord, hc, if_pos]
    apply lookupCategory_updateRecordTypeInfo_stable
    rw [lookupCategory_congr _ db n (updateSourceInfo_record_types ..)]
    exact h
  | false =>
    simp only [insertHealthRecord, hc, Bool.false_eq_true, if_false]
    apply lookupCategory_updateRecordTypeInfo_stable
    rw [lookupCategory_congr _ db n ?_]
    · exact h
    · rw [updateSourceInfo_record_types]

theorem lookupCategory_insertHealthRecord_new (db : DB) (now : String)
    (record : RecordInput) (n : String) (h : lookupCategory db n = none)
    (ht : record.record_type = n) :
    lookupCategory (insertHealthRecord db now record).2 n
      = some (inferCategoryFromType n) := by
  cases hc : db.health_records.any (sqlKeyConflict record (pyTruthyStr record.end_date)) with
  | true =>
    simp only [insertHealthRecord, hc, if_pos, ht]
    apply lookupCategory_updateRecordTypeInfo_new
    rw [lookupCategory_congr _ db n (updateSourceInfo_record_types ..)]
    exact h
  | false =>
    simp only [insertHealthRecord, hc, Bool.false_eq_true, if_false, ht]
    apply lookupCategory_updateRecordTypeInfo_new
    rw [lookupCategory_congr _ db n ?_]
    · exact h
    · rw [updateSourceInfo_record_types]

theorem lookupCategory_insertWorkout_stable (db : DB) (now : String)
    (w : WorkoutInput) (n c : String) (h : lookupCategory db n = some c) :
    lookupCategory (insertWorkout db now w).2 n = some c := by
  unfold insertWorkout
  exact lookupCategory_insertHealthRecord_stable db now _ n c h

/-- When some stored row already carries the record's natural key, the insert
takes the `IGNORE` branch. -/
theorem any_conflict_of_mem (db : DB) (record : RecordInput) (row : HealthRow)
    (hmem : row ∈ db.health_records)
    (hconf : sqlKeyConflict record (pyTruthyStr record.end_date) row = true) :
    db.health_records.any (sqlKeyConflict record (pyTruthyStr record.end_date)) = true :=
  List.any_eq_true.mpr ⟨row, hmem, hconf⟩

/-- The freshly inserted row conflicts with a later insert of the same record
whenever the record's end date is truthy. -/
theorem insertedRow_selfConflict (db : DB) (record : RecordInput) (e : String)
    (he : pyTruthyStr record.end_date = some e) :
    sqlKeyConflict record (pyTruthyStr record.end_date) (insertedRow db record) = true := by
  unfold sqlKeyConflict insertedRow
  simp [he]

/-- Behaviour of `insert_workout` when the backing record's natural key is
already stored: the record insert is ignored, `lastrowid` is 0, and the
`workouts` `INSERT OR REPLACE` writes the side-row at fixed id 0, replacing
any previous id-0 row. -/
theorem insertWorkout_conflict_spec (db : DB) (now : String) (w : WorkoutInput)
    (h : ∃ row ∈ db.health_records,
      sqlKeyConflict (workoutBackingRecord w)
        (pyTruthyStr (workoutBackingRecord w).end_date) row = true) :
    (insertWorkout db now w).1 = 0 ∧
    (insertWorkout db now w).2.health_records = db.health_records ∧
    (insertWorkout db now w).2.workouts
      = db.workouts.filter (fun x => x.id != 0) ++ [workoutSideRow w 0] := by
  obtain ⟨row, hmem, hconf⟩ := h
  have hany := any_conflict_of_mem db (workoutBackingRecord w) row hmem hconf
  have hw := insertHealthRecord_workouts db now (workoutBackingRecord w)
  rcases insertHealthRecord_cases db now (workoutBackingRecord w) with
    ⟨_, h1, h2, _⟩ | ⟨hc, _, _, _⟩
  · refine ⟨?_, ?_, ?_⟩
    · show (insertHealthRecord db now (workoutBackingRecord w)).1 = 0
      exact h1
    · show (insertHealthRecord db now (workoutBackingRecord w)).2.health_records
        = db.health_records
      exact h2
    · show (insertHealthRecord db now (workoutBackingRecord w)).2.workouts.filter _ ++ _ = _
      rw [hw, h1]
  · rw [hany] at hc; cases hc

/-- Behaviour of `insert_workout` when the backing record's natural key is
fresh: the record row and the side row share the new autoincrement id. -/
theorem insertWorkout_fresh_spec (db : DB) (now : String) (w : WorkoutInput)
    (h : db.health_records.any
      (sqlKeyConflict (workoutBackingRecord w)
        (pyTruthyStr (workoutBackingRecord w).end_date)) = false) :
    (insertWorkout db now w).1 = db.next_record_id ∧
    (insertWorkout db now w).2.health_records
      = db.health_records ++ [insertedRow db (workoutBackingRecord w)] ∧
    workoutSideRow w db.next_record_id ∈ (insertWorkout db now w).2.workouts := by
  rcases insertHealthRecord_cases db now (workoutBackingRecord w) with
    ⟨hc, _, _, _⟩ | ⟨_, h1, h2, _⟩
  · rw [h] at hc; cases hc
  · refine ⟨?_, ?_, ?_⟩
    · show (insertHealthRecord db now (workoutBackingRecord w)).1 = db.next_record_id
      exact h1
    · show (insertHealthRecord db now (workoutBackingRecord w)).2.health_records
        = db.health_records ++ [insertedRow db (workoutBackingRecord w)]
      exact h2
    · show workoutSideRow w db.next_record_id ∈
        (insertHealthRecord db now (workoutBackingRecord w)).2.workouts.filter _ ++
          [workoutSideRow w _]
      rw [h1]
      exact List.mem_append_right _ (List.mem_singleton.mpr rfl)

/-! ## Claim theorems -/

/-- C1 counterexample: with a `None` end date, inserting the identical record
twice yields two rows — the whole-store count after the second call is 2, not
equal to the count 1 after the first call, because SQLite's `UNIQUE`
constraint treats `NULL` end dates as distinct. -/
theorem C1_counterexample :
    rNull.end_date = none ∧
    (insertHealthRecord emptyDB "t0" rNull).2.health_records.length = 1 ∧
    (insertHealthRecord (insertHealthRecord emptyDB "t0" rNull).2 "t1" rNull).2.health_records.length
      = 2 := by
  decide

/-- C1 (amended): for every record whose end date is a non-empty (non-null)
value, inserting it twice leaves the records table after the second call
exactly as it was after the first call; with a null end date each insert adds
a fresh row. -/
theorem C1_dedup_nonnull (db : DB) (now1 now2 : String) (r : RecordInput) (e : String)
    (he : r.end_date = some e) (hne : e ≠ "") :
    (insertHealthRecord (insertHealthRecord db now1 r).2 now2 r).2.health_records
      = (insertHealthRecord db now1 r).2.health_records := by
  have hty : pyTruthyStr r.end_date = some e := by simp [pyTruthyStr, he, hne]
  have hany : (insertHealthRecord db now1 r).2.health_records.any
      (sqlKeyConflict r (pyTruthyStr r.end_date)) = true := by
    rcases insertHealthRecord_cases db now1 r with ⟨hc, _, hrec, _⟩ | ⟨_, _, hrec, _⟩
    · rw [hrec]; exact hc
    · rw [hrec]
      exact List.any_eq_true.mpr
        ⟨insertedRow db r, by simp, insertedRow_selfConflict db r e hty⟩
  rcases insertHealthRecord_cases (insertHealthRecord db now1 r).2 now2 r with
    ⟨_, _, h2, _⟩ | ⟨hc2, _, _, _⟩
  · exact h2
  · rw [hany] at hc2; cases hc2

/-- C1 witness: the amended dedup at a concrete record with a non-null end
date. -/
theorem C1_dedup_nonnull_witness :
    (insertHealthRecord (insertHealthRecord emptyDB "t0" rFull).2 "t1" rFull).2.health_records
      = (insertHealthRecord emptyDB "t0" rFull).2.health_records :=
  C1_dedup_nonnull emptyDB "t0" "t1" rFull "2024-01-05T10:05:00" rfl (by decide)

/-- C2 counterexample: the first insert creates row id 1 (the only stored
id); re-inserting the identical record returns 0 — the fresh connection's
`sqlite3_last_insert_rowid()` after the ignored insert — which is not the
existing row's id 1 as the claim promises (the autoincrement sequence starts
at 1, so no row ever has id 0). -/
theorem C2_counterexample :
    (insertHealthRecord emptyDB "t0" rFull).1 = 1 ∧
    ((insertHealthRecord emptyDB "t0" rFull).2.health_records.map (fun r => r.id)) = [1] ∧
    (insertHealthRecord (insertHealthRecord emptyDB "t0" rFull).2 "t1" rFull).1 = 0 := by
  decide

/-- C2 (amended): when the natural key already exists, `insert_health_record`
is a no-op on the records table but returns 0 (the fresh connection's
`sqlite3_last_insert_rowid`, which no successful insert has set), not the
existing row's id. -/
theorem C2_conflict_noop (db : DB) (now : String) (r : RecordInput)
    (h : ∃ row ∈ db.health_records, sqlKeyConflict r (pyTruthyStr r.end_date) row = true) :
    (insertHealthRecord db now r).1 = 0 ∧
    (insertHealthRecord db now r).2.health_records = db.health_records := by
  obtain ⟨row, hmem, hconf⟩ := h
  have hany := any_conflict_of_mem db r row hmem hconf
  rcases insertHealthRecord_cases db now r with ⟨_, h1, h2, _⟩ | ⟨hc, _, _, _⟩
  · exact ⟨h1, h2⟩
  · rw [hany] at hc; cases hc

/-- C2 witness: the amended no-op-and-zero behaviour at a concrete
conflicting insert. -/
theorem C2_conflict_noop_witness :
    (insertHealthRecord (insertHealthRecord emptyDB "t0" rFull).2 "t1" rFull).1 = 0 ∧
    (insertHealthRecord (insertHealthRecord emptyDB "t0" rFull).2 "t1" rFull).2.health_records
      = (insertHealthRecord emptyDB "t0" rFull).2.health_records :=
  C2_conflict_noop (insertHealthRecord emptyDB "t0" rFull).2 "t1" rFull
    ⟨insertedRow emptyDB rFull, by decide, by decide⟩

/-- C3 counterexample: inserting the same workout twice (both calls complete,
no failure) leaves a `workouts` row with id 0 backed by no `health_records`
row — the two inserts are separate transactions and the dedup no-op feeds
`lastrowid = 0` into the `workouts` insert, so the claimed invariant fails
even in fully completed runs. -/
theorem C3_counterexample :
    ((insertWorkout (insertWorkout emptyDB "t0" wEx).2 "t1" wEx).2.workouts.map
      (fun x => x.id)) = [1, 0] ∧
    ((insertWorkout (insertWorkout emptyDB "t0" wEx).2 "t1" wEx).2.health_records.map
      (fun r => r.id)) = [1] := by
  decide

/-- C3 (amended): only when the backing record's natural key is fresh does
`insert_workout` link the two tables: the returned id is the new
autoincrement id, the backing row is appended under it, and the side row is
keyed by the same id. The two inserts remain separate transactions, and a
conflicting backing record writes an orphaned side row at fixed id 0
instead. -/
theorem C3_fresh_workout_linked (db : DB) (now : String) (w : WorkoutInput)
    (h : db.health_records.any
      (sqlKeyConflict (workoutBackingRecord w)
        (pyTruthyStr (workoutBackingRecord w).end_date)) = false) :
    (insertWorkout db now w).1 = db.next_record_id ∧
    insertedRow db (workoutBackingRecord w) ∈ (insertWorkout db now w).2.health_records ∧
    (insertedRow db (workoutBackingRecord w)).id = db.next_record_id ∧
    workoutSideRow w db.next_record_id ∈ (insertWorkout db now w).2.workouts ∧
    (workoutSideRow w db.next_record_id).id = db.next_record_id := by
  obtain ⟨h1, h2, h3⟩ := insertWorkout_fresh_spec db now w h
  refine ⟨h1, ?_, rfl, h3, rfl⟩
  rw [h2]
  exact List.mem_append_right _ (List.mem_singleton.mpr rfl)

/-- C3 witness: the amended linked-insert behaviour at a concrete fresh
workout. -/
theorem C3_fresh_workout_linked_witness :
    (insertWorkout emptyDB "t0" wEx).1 = emptyDB.next_record_id ∧
    insertedRow emptyDB (workoutBackingRecord wEx)
      ∈ (insertWorkout emptyDB "t0" wEx).2.health_records ∧
    (insertedRow emptyDB (workoutBackingRecord wEx)).id = emptyDB.next_record_id ∧
    workoutSideRow wEx emptyDB.next_record_id ∈ (insertWorkout emptyDB "t0" wEx).2.workouts ∧
    (workoutSideRow wEx emptyDB.next_record_id).id = emptyDB.next_record_id :=
  C3_fresh_workout_linked emptyDB "t0" wEx (by decide)

/-- C10 counterexample: when the backing record hits the dedup no-op, the
second `insert_workout` does not overwrite the workout's existing side row —
it returns 0 and writes a separate `workouts` row at fixed id 0 (count goes
from 1 to 2, and the old row id 1 is still present unchanged); a third
duplicate call then replaces that id-0 row instead of touching the original
(count stays 2). -/
theorem C10_counterexample :
    (insertWorkout (insertWorkout emptyDB "t0" wEx).2 "t1" wEx).1 = 0 ∧
    (insertWorkout emptyDB "t0" wEx).2.workouts.length = 1 ∧
    (insertWorkout (insertWorkout emptyDB "t0" wEx).2 "t1" wEx).2.workouts.length = 2 ∧
    workoutSideRow wEx 1 ∈ (insertWorkout (insertWorkout emptyDB "t0" wEx).2 "t1" wEx).2.workouts ∧
    (insertWorkout (insertWorkout (insertWorkout emptyDB "t0" wEx).2 "t1" wEx).2
      "t2" wEx).2.workouts.length = 2 := by
  decide

/-- C10 (amended): on a dedup conflict of the backing record,
`insert_workout` returns 0, leaves `health_records` (first-seen values)
untouched, and writes the side-row carrying the workout's duration,
distance, energy and metadata at fixed id 0 — creating it if absent and
overwriting any previous id-0 row (last-write-wins at id 0), never the side
row at the backing record's real id. -/
theorem C10_conflict_new_row (db : DB) (now : String) (w : WorkoutInput)
    (h : ∃ row ∈ db.health_records,
      sqlKeyConflict (workoutBackingRecord w)
        (pyTruthyStr (workoutBackingRecord w).end_date) row = true) :
    (insertWorkout db now w).1 = 0 ∧
    (insertWorkout db now w).2.health_records = db.health_records ∧
    (insertWorkout db now w).2.workouts
      = db.workouts.filter (fun x => x.id != 0) ++ [workoutSideRow w 0] :=
  insertWorkout_conflict_spec db now w h

/-- C10 witness: the amended conflict behaviour at a concrete duplicated
workout. -/
theorem C10_conflict_new_row_witness :
    (insertWorkout (insertWorkout emptyDB "t0" wEx).2 "t1" wEx).1 = 0 ∧
    (insertWorkout (insertWorkout emptyDB "t0" wEx).2 "t1" wEx).2.health_records
      = (insertWorkout emptyDB "t0" wEx).2.health_records ∧
    (insertWorkout (insertWorkout emptyDB "t0" wEx).2 "t1" wEx).2.workouts
      = (insertWorkout emptyDB "t0" wEx).2.workouts.filter (fun x => x.id != 0) ++
        [workoutSideRow wEx 0] :=
  C10_conflict_new_row (insertWorkout emptyDB "t0" wEx).2 "t1" wEx
    ⟨insertedRow emptyDB (workoutBackingRecord wEx), by decide, by decide⟩

/-- C9: category inference is a pure function of the type name (a first
insert of type `n` always stores `inferCategoryFromType n`), and once a
`record_types` row exists its category is unchanged by any later record or
workout insert. -/
theorem C9_category_stable (db : DB) (n c now : String) (r : RecordInput)
    (w : WorkoutInput) :
    (lookupCategory db n = some c →
      lookupCategory (insertHealthRecord db now r).2 n = some c ∧
      lookupCategory (insertWorkout db now w).2 n = some c) ∧
    (lookupCategory db n = none → r.record_type = n →
      lookupCategory (insertHealthRecord db now r).2 n
        = some (inferCategoryFromType n)) := by
  constructor
  · intro h
    exact ⟨lookupCategory_insertHealthRecord_stable db now r n c h,
           lookupCategory_insertWorkout_stable db now w n c h⟩
  · intro h ht
    exact lookupCategory_insertHealthRecord_new db now r n h ht

/-- C9 witness: the step-count category "Activity" survives a later record
insert and a later workout insert. -/
theorem C9_category_stable_witness :
    lookupCategory
        (insertHealthRecord (insertHealthRecord emptyDB "t0" rNull).2 "t1" rFull).2
        "HKQuantityTypeIdentifierStepCount" = some "Activity" ∧
    lookupCategory (insertWorkout (insertHealthRecord emptyDB "t0" rNull).2 "t1" wEx).2
        "HKQuantityTypeIdentifierStepCount" = some "Activity" :=
  (C9_category_stable (insertHealthRecord emptyDB "t0" rNull).2
    "HKQuantityTypeIdentifierStepCount" "Activity" "t1" rFull wEx).1 (by decide)

/-- A validated-looking candidate whose end date precedes its start date. -/
def cBad : Candidate :=
  { record_type := some (.jstr "HKQuantityTypeIdentifierHeartRate"),
    source := some (.jstr "iPhone"), unit := some .jnull,
    value := some (.jnum 70), start_date := some (.jstr "2024-01-02T00:00:00"),
    end_date := some (.jstr "2024-01-01T00:00:00"), metadata := some (.jobj []) }

/-- C7 counterexample: a candidate whose end date lies strictly before its
start date passes `validate_health_record` — the validator never compares the
two dates, so such a record is not rejected. -/
theorem C7_counterexample :
    validate_health_record cBad = true ∧
    cBad.start_date = some (.jstr "2024-01-02T00:00:00") ∧
    cBad.end_date = some (.jstr "2024-01-01T00:00:00") ∧
    strLt "2024-01-01T00:00:00" "2024-01-02T00:00:00" = true :=
  ⟨by decide, rfl, rfl, by decide⟩

theorem isStrMin1_spec (v : JVal) (h : isStrMin1 v = true) :
    ∃ s, v = .jstr s ∧ 1 ≤ s.length := by
  cases v <;> simp [isStrMin1] at h
  exact ⟨_, rfl, h⟩

theorem isNumJ_spec (v : JVal) (h : isNumJ v = true) : ∃ q, v = .jnum q := by
  cases v <;> simp [isNumJ] at h
  exact ⟨_, rfl⟩

theorem isStrJ_spec (v : JVal) (h : isStrJ v = true) : ∃ s, v = .jstr s := by
  cases v <;> simp [isStrJ] at h
  exact ⟨_, rfl⟩

/-- C7 (amended): every candidate the validator accepts has `record_type`,
`source`, `value` and `start_date` present, with the names non-empty strings,
the value a number and the start date a string; the relation
`end_date >= start_date` is not checked. -/
theorem C7_validator_accepts (c : Candidate) (h : validate_health_record c = true) :
    (∃ s, c.record_type = some (JVal.jstr s) ∧ 1 ≤ s.length) ∧
    (∃ s, c.source = some (JVal.jstr s) ∧ 1 ≤ s.length) ∧
    (∃ q, c.value = some (JVal.jnum q)) ∧
    (∃ s, c.start_date = some (JVal.jstr s)) := by
  unfold validate_health_record at h
  simp only [Bool.and_eq_true] at h
  obtain ⟨⟨⟨⟨⟨⟨⟨⟨⟨⟨hA, hB⟩, hC⟩, hD⟩, hE⟩, hF⟩, hG⟩, hH⟩, hI⟩, hJ⟩, hK⟩ := h
  refine ⟨?_, ?_, ?_, ?_⟩
  · rcases Option.isSome_iff_exists.mp hA with ⟨v, hv⟩
    rw [hv] at hE
    rcases isStrMin1_spec v (by simpa [checkOpt] using hE) with ⟨s, hs, hl⟩
    exact ⟨s, by rw [hv, hs], hl⟩
  · rcases Option.isSome_iff_exists.mp hB with ⟨v, hv⟩
    rw [hv] at hF
    rcases isStrMin1_spec v (by simpa [checkOpt] using hF) with ⟨s, hs, hl⟩
    exact ⟨s, by rw [hv, hs], hl⟩
  · rcases Option.isSome_iff_exists.mp hC with ⟨v, hv⟩
    rw [hv] at hH
    rcases isNumJ_spec v (by simpa [checkOpt] using hH) with ⟨q, hq⟩
    exact ⟨q, by rw [hv, hq]⟩
  · rcases Option.isSome_iff_exists.mp hD with ⟨v, hv⟩
    rw [hv] at hI
    rcases isStrJ_spec v (by simpa [checkOpt] using hI) with ⟨s, hs⟩
    exact ⟨s, by rw [hv, hs]⟩

/-- C7 witness: the amended acceptance conditions at a concrete accepted
candidate. -/
theorem C7_validator_accepts_witness :
    (∃ s, cBad.record_type = some (JVal.jstr s) ∧ 1 ≤ s.length) ∧
    (∃ s, cBad.source = some (JVal.jstr s) ∧ 1 ≤ s.length) ∧
    (∃ q, cBad.value = some (JVal.jnum q)) ∧
    (∃ s, cBad.start_date = some (JVal.jstr s)) :=
  C7_validator_accepts cBad (by decide)

/-- C4 (code bug): an element whose start-date text holds no space makes the
whole stream die with an uncaught `IndexError` — the remaining elements
(parseable on their own, as the second conjunct shows) are never processed,
so a fatal error is not confined to an unreadable top-level document. -/
theorem C4_malformed_element_aborts :
    parseXmlStream (.document [goodElem, badElem, goodElem]) = .error .indexError ∧
    parseXmlStream (.document [goodElem]) =
      .ok [{ record_type := some "HKQuantityTypeIdentifierStepCount", source := "iPhone",
             unit := none, value := 1, start_date := "2024-01-05 10:00:00",
             end_date := none, metadata := [] }] := by
  decide

/-- C5 (code bug): a start-date text without a space character (for example
plain `"garbage"`, or any `T`-separated ISO string) raises an uncaught
`IndexError` from `date_str.split(' ')[1]` instead of yielding the dropped
outcome; a non-numeric value text is dropped as the claim states. -/
theorem C5_spaceless_date_raises :
    parseRecordElement badElem = .error .indexError ∧
    parseAppleDate "garbage" = .error .indexError ∧
    parseRecordElement badValueElem = .ok none := by
  decide

/-- C8 counterexample: a record whose `start_date` equals the window's upper
end is returned by the range query (SQL `BETWEEN` is inclusive), where the
claim's half-open window `[start, end)` would exclude it. -/
theorem C8_counterexample :
    (dbEdge.health_records.map (fun r => r.start_date)) = ["2024-01-02T00:00:00"] ∧
    (getRecordsByDateRange dbEdge "2024-01-01T00:00:00" "2024-01-02T00:00:00" none).map
      (fun r => r.id) = [1] := by
  decide

/-- C8 (amended): the range query returns exactly the records whose
`start_date` lies in the closed window `[start, end]` — both endpoints
included — matching the optional (non-empty) type filter, ordered
nondecreasingly by `start_date`. -/
theorem C8_closed_window (db : DB) (s e : String) (rt : Option String)
    (hrt : ∀ t, rt = some t → t ≠ "") :
    (∀ r : HealthRow, r ∈ getRecordsByDateRange db s e rt ↔
      (r ∈ db.health_records ∧ (∀ t, rt = some t → r.record_type = t) ∧
       strLe s r.start_date = true ∧ strLe r.start_date e = true)) ∧
    List.Chain' (fun a b => strLe a.start_date b.start_date = true)
      (getRecordsByDateRange db s e rt) := by
  cases rt with
  | none =>
    refine ⟨?_, ?_⟩
    · intro r
      show r ∈ sortByStart (db.health_records.filter fun r =>
        strLe s r.start_date && strLe r.start_date e) ↔ _
      rw [mem_sortByStart, List.mem_filter]
      constructor
      · rintro ⟨hmem, hcond⟩
        rw [Bool.and_eq_true] at hcond
        refine ⟨hmem, ?_, hcond.1, hcond.2⟩
        intro t ht
        cases ht
      · rintro ⟨hmem, _, h1, h2⟩
        exact ⟨hmem, by rw [Bool.and_eq_true]; exact ⟨h1, h2⟩⟩
    · exact chain_sortByStart _
  | some t =>
    have ht : t ≠ "" := hrt t rfl
    have hrw : getRecordsByDateRange db s e (some t)
        = sortByStart (db.health_records.filter
            (fun r => r.record_type == t &&
              (strLe s r.start_date && strLe r.start_date e))) := by
      show (if t = "" then
          sortByStart (db.health_records.filter fun r =>
            strLe s r.start_date && strLe r.start_date e)
        else
          sortByStart (db.health_records.filter
            (fun r => r.record_type == t &&
              (strLe s r.start_date && strLe r.start_date e)))) = _
      rw [if_neg ht]
    refine ⟨?_, ?_⟩
    · intro r
      rw [hrw, mem_sortByStart, List.mem_filter]
      constructor
      · rintro ⟨hmem, hcond⟩
        simp only [Bool.and_eq_true, beq_iff_eq] at hcond
        obtain ⟨hty, h1, h2⟩ := hcond
        refine ⟨hmem, ?_, h1, h2⟩
        intro t2 ht2
        injection ht2 with ht3
        rw [← ht3]
        exact hty
      · rintro ⟨hmem, hty, h1, h2⟩
        refine ⟨hmem, ?_⟩
        simp only [Bool.and_eq_true, beq_iff_eq]
        exact ⟨hty t rfl, h1, h2⟩
    · rw [hrw]
      exact chain_sortByStart _

/-- C8 witness: the amended closed-window contract at a concrete store and
window with no type filter. -/
theorem C8_closed_window_witness :
    List.Chain' (fun a b => strLe a.start_date b.start_date = true)
      (getRecordsByDateRange dbAgg "2024-01-01T00:00:00" "2024-12-31T00:00:00" none) :=
  (C8_closed_window dbAgg "2024-01-01T00:00:00" "2024-12-31T00:00:00" none
    (fun _ h => nomatch h)).2

theorem filterMap_length_of_isSome {α β : Type} (f : α → Option β) (l : List α)
    (h : ∀ x ∈ l, (f x).isSome = true) : (l.filterMap f).length = l.length := by
  induction l with
  | nil => rfl
  | cons x xs ih =>
    obtain ⟨y, hy⟩ := Option.isSome_iff_exists.mp (h x (List.mem_cons_self x xs))
    rw [List.filterMap_cons, hy]
    simp only [List.length_cons]
    rw [ih fun z hz => h z (List.mem_cons_of_mem _ hz)]

theorem isEmpty_false_of_ne_nil {α : Type} {l : List α} (h : l ≠ []) :
    l.isEmpty = false := by
  cases l with
  | nil => exact absurd rfl h
  | cons v vs => rfl

/-- C6: `get_daily_aggregates` yields one entry per calendar day that has at
least one matching record in the (inclusive) range, in strictly ascending
date order; each entry's count is the number of that day's matching rows,
the mean is exactly their value sum divided by the count, min and max are
attained values bounding all of them, and `min <= mean <= max`. (Hypothesis:
every stored row carries a value, as the spec's invariant and the ingest
pipeline guarantee.) -/
theorem C6_daily_aggregates (db : DB) (t s e : String)
    (hval : ∀ r ∈ db.health_records, r.value.isSome = true) :
    List.Chain' (fun a b => strLt a.date b.date = true) (getDailyAggregates db t s e) ∧
    (∀ d : String,
      (∃ a ∈ getDailyAggregates db t s e, a.date = d) ↔
      ∃ r ∈ db.health_records,
        (r.record_type == t && strLe s r.start_date && strLe r.start_date e) = true ∧
        sqlDateOf r.start_date = d) ∧
    (∀ a ∈ getDailyAggregates db t s e,
      a.count = (dayRows db t s e a.date).length ∧
      (dayValues db t s e a.date).length = a.count ∧
      ∃ m mn mx,
        a.avg_value = some m ∧ a.min_value = some mn ∧ a.max_value = some mx ∧
        m = (dayValues db t s e a.date).sum / (a.count : Rat) ∧
        mn ∈ dayValues db t s e a.date ∧ (∀ v ∈ dayValues db t s e a.date, mn ≤ v) ∧
        mx ∈ dayValues db t s e a.date ∧ (∀ v ∈ dayValues db t s e a.date, v ≤ mx) ∧
        mn ≤ m ∧ m ≤ mx) := by
  refine ⟨?_, ?_, ?_⟩
  · rw [getDailyAggregates, List.chain'_map]
    exact chain_datesOf (matchingRows db t s e)
  · intro d
    constructor
    · rintro ⟨a, ha, had⟩
      rw [getDailyAggregates] at ha
      obtain ⟨d0, hd0, rfl⟩ := List.mem_map.mp ha
      obtain ⟨r, hrM, hrd⟩ := (mem_datesOf d0 (matchingRows db t s e)).mp hd0
      obtain ⟨hmem, hcond⟩ := List.mem_filter.mp hrM
      exact ⟨r, hmem, hcond, by rw [hrd]; exact had⟩
    · rintro ⟨r, hmem, hcond, hrd⟩
      have hrM : r ∈ matchingRows db t s e := List.mem_filter.mpr ⟨hmem, hcond⟩
      have hd : d ∈ datesOf (matchingRows db t s e) :=
        (mem_datesOf d (matchingRows db t s e)).mpr ⟨r, hrM, hrd⟩
      rw [getDailyAggregates]
      exact ⟨_, List.mem_map_of_mem _ hd, rfl⟩
  · intro a ha
    rw [getDailyAggregates] at ha
    obtain ⟨d, hd, rfl⟩ := List.mem_map.mp ha
    obtain ⟨r, hrM, hrd⟩ := (mem_datesOf d (matchingRows db t s e)).mp hd
    have hrday : r ∈ dayRows db t s e d :=
      List.mem_filter.mpr ⟨hrM, beq_iff_eq.mpr hrd⟩
    have hmemdb : r ∈ db.health_records := (List.mem_filter.mp hrM).1
    obtain ⟨v, hv⟩ := Option.isSome_iff_exists.mp (hval r hmemdb)
    have hvmem : v ∈ dayValues db t s e d :=
      List.mem_filterMap.mpr ⟨r, hrday, hv⟩
    have hne : dayValues db t s e d ≠ [] := List.ne_nil_of_mem hvmem
    have hlen : (dayValues db t s e d).length = (dayRows db t s e d).length := by
      apply filterMap_length_of_isSome
      intro x hx
      exact hval x (List.mem_filter.mp ((List.mem_filter.mp hx).1)).1
    have hpos : (0 : Rat) < ((dayValues db t s e d).length : Rat) := by
      exact_mod_cast List.length_pos.mpr hne
    obtain ⟨mn, hmn, hmnmem, hmnbd⟩ := listMinQ_spec (dayValues db t s e d) hne
    obtain ⟨mx, hmx, hmxmem, hmxbd⟩ := listMaxQ_spec (dayValues db t s e d) hne
    refine ⟨rfl, hlen, (dayValues db t s e d).sum / ((dayValues db t s e d).length : Rat),
      mn, mx, ?_, hmn, hmx, ?_, hmnmem, hmnbd, hmxmem, hmxbd, ?_, ?_⟩
    · show (if (dayValues db t s e d).isEmpty then (none : Option Rat)
          else some ((dayValues db t s e d).sum / ((dayValues db t s e d).length : Rat)))
        = some ((dayValues db t s e d).sum / ((dayValues db t s e d).length : Rat))
      rw [isEmpty_false_of_ne_nil hne]
      simp
    · rw [hlen]
    · rw [le_div_iff₀ hpos]
      exact mul_card_le_sum (dayValues db t s e d) mn hmnbd
    · rw [div_le_iff₀ hpos]
      calc (dayValues db t s e d).sum
          ≤ mx * ((dayValues db t s e d).length : Rat) :=
            sum_le_mul_card (dayValues db t s e d) mx hmxbd
        _ = _ := by ring

/-- C6 witness: the aggregate contract's ordering at a concrete two-day
store. -/
theorem C6_daily_aggregates_witness :
    List.Chain' (fun a b => strLt a.date b.date = true)
      (getDailyAggregates dbAgg "HR" "2024-01-01T00:00:00" "2024-12-31T00:00:00") :=
  (C6_daily_aggregates dbAgg "HR" "2024-01-01T00:00:00" "2024-12-31T00:00:00"
    (by decide)).1
